import Mathlib

/-!
Verification development for the `coalesce` repository (a Codeforces
solved-problem tracker).  The repository contains two generations of the
same tool:

* `coalesce/data_manager.py` — class `DataManager` (solved store
  `problems.json`, catalog store `all_problems.json`, rolling backups),
  queried through `DataManager.get_problems` / `_matches_filters`;
* `src/cf_api.py` + `src/data_manager.py` + `coalesce.py` — the
  module-level variant (`get_solved_for_handle`, `get_all_solved_problems`,
  `save_solved_problems_data`, the inline filters of the `list` command and its
  `check_cid` helper).

Both are embedded below.  Python dicts are modelled as association lists
that preserve insertion order (as CPython dicts do); a JSON object field
that may be absent is modelled as an `Option`; remote HTTP interactions are
modelled by passing the outcome of each request as an explicit parameter
(an inductive distinguishing a raised transport error, a JSON decode
error, a remote non-OK status, and a well-formed payload).  A Python
exception that propagates out of a function is modelled by an explicit
`raised`-style result constructor.  Wall-clock timing text in result
messages is elided; timestamps are explicit parameters.
-/

/-! ### Association-list model of Python dicts -/

/-- Python `d[k] = v` on a dict with unique keys: replace the value at the
existing position of `k`, otherwise append the new binding at the end. -/
def setKey {α : Type} : List (String × α) → String → α → List (String × α)
  | [], k, v => [(k, v)]
  | p :: ps, k, v => if p.1 = k then (k, v) :: ps else p :: setKey ps k v

/-- Python `d1.update(d2)`: assign every binding of `d2` into `d1`,
left to right. -/
def updateMap {α : Type} (m1 m2 : List (String × α)) : List (String × α) :=
  m2.foldl (fun acc p => setKey acc p.1 p.2) m1

/-- Python `if k not in d: d[k] = v`. -/
def insertIfAbsent {α : Type} (m : List (String × α)) (k : String) (v : α) :
    List (String × α) :=
  if (m.lookup k).isSome then m else m ++ [(k, v)]

/-- The first option when present, otherwise the fallback (used to state
lookup laws of the dict operations). -/
def firstLookup {α : Type} (o fallback : Option α) : Option α :=
  match o with
  | some v => some v
  | none => fallback

/-! ### `coalesce/data_manager.py` — the `DataManager` class -/

/-- One record of the solved store `problems.json`, as built by
`DataManager.get_solved_problems` (lines 160-171).  `submission_time` and
`contest_id` are `Option`s because `_matches_filters` reads stored dicts
that may predate those keys (`"submission_time" in problem`,
`problem.get("contest_id", ...)`); ingestion always fills them in. -/
structure DMRecord where
  problem_id : String
  problem_link : String
  rating : Int
  tags : List String
  submission_id : Int
  submission_link : String
  submission_time : Option Int
  contest_id : Option Int
  problem_code : String
deriving Repr, DecidableEq

/-- The solved-problems dict keyed by `problem_id`. -/
abbrev DMMap : Type := List (String × DMRecord)

/-- One element of `data["result"]` as read by
`DataManager.get_solved_problems`: `item["verdict"]`, `item["id"]` and
`item["problem"]["index"]` are accessed unconditionally, `contestId`,
`rating`, `tags` and `creationTimeSeconds` through presence checks or
`.get` defaults. -/
structure DMItem where
  verdict : String
  id : Int
  problemContestId : Option Int
  problemIndex : String
  problemRating : Option Int
  problemTags : List String
  creationTimeSeconds : Option Int
deriving Repr

/-- The record `DataManager.get_solved_problems` (lines 139-171) builds from
one submission item, or `none` when the item is skipped: verdict not
`"OK"`, missing `contestId`, or rating (defaulted to 0) below 800. -/
def dmItemRecord (it : DMItem) : Option (String × DMRecord) :=
  if it.verdict = "OK" then
    match it.problemContestId with
    | none => none
    | some cid =>
      let rating := it.problemRating.getD 0
      if 800 ≤ rating then
        let pid := toString cid ++ it.problemIndex
        some (pid,
          { problem_id := pid
            problem_link := "https://codeforces.com/problemset/problem/" ++
              toString cid ++ "/" ++ it.problemIndex
            rating := rating
            tags := it.problemTags
            submission_id := it.id
            submission_link := "https://codeforces.com/contest/" ++
              toString cid ++ "/submission/" ++ toString it.id
            submission_time := some (it.creationTimeSeconds.getD 0)
            contest_id := some cid
            problem_code := it.problemIndex })
      else none
  else none

/-- The accumulation loop of `DataManager.get_solved_problems`: first
accepted submission for a `problem_id` wins within one handle
(`if problem_id not in solved_problems`). -/
def dmProcessItems : List DMItem → DMMap → DMMap
  | [], m => m
  | it :: its, m =>
    match dmItemRecord it with
    | none => dmProcessItems its m
    | some (k, r) => dmProcessItems its (insertIfAbsent m k r)

/-- Outcome of the `user.status` request made by
`DataManager.get_solved_problems`: the function has no try/except, so a
transport error from `requests.get` or a decode error from
`response.json()` propagates as an exception (`raises`); a well-formed
response is either non-OK (`apiError`, returned as `(False, message)`) or
OK with a list of submission items. -/
inductive DMFetchOutcome where
  | raises
  | apiError (comment : String)
  | ok (items : List DMItem)

/-- Whether the outcome is the non-OK-status case. -/
def DMFetchOutcome.isApiError : DMFetchOutcome → Bool
  | .apiError _ => true
  | _ => false

/-- `DataManager.get_solved_problems` (lines 129-173), with the remote
response passed in: `none` models the `(False, message)` return on a
non-OK status, `Except.error` the propagating exception. -/
def get_solved_problems (out : DMFetchOutcome) : Except Unit (Option DMMap) :=
  match out with
  | .raises => .error ()
  | .apiError _ => .ok none
  | .ok items => .ok (some (dmProcessItems items []))

/-- Contents of `problems.json`. -/
structure DMStore where
  last_refresh : Int
  problems : DMMap
deriving Repr, DecidableEq

/-- State touched by `DataManager.update_problems_data`: the solved store
file (always created by `__init__`) and the backup directory.  Backup file
names are `problems_{timestamp}.json` with a `%Y%m%d_%H%M%S` timestamp, so
the lexicographic order `sorted()` uses coincides with chronological
order; names are modelled as the `Nat` timestamps and the directory as the
list of names in sorted order. -/
structure DMState where
  dataFile : DMStore
  backups : List Nat
deriving Repr, DecidableEq

/-- Placing one new file into the backup directory, viewed through
`sorted(Path(...).glob(...))`: ordered insertion; `shutil.copy2` onto an
existing name overwrites it. -/
def sortedInsert (name : Nat) : List Nat → List Nat
  | [] => [name]
  | b :: bs =>
    if name < b then name :: b :: bs
    else if name = b then b :: bs
    else b :: sortedInsert name bs

/-- The retention step of `DataManager.backup_data` (lines 88-91): keep
only the last 10 of the sorted backup list. -/
def dmPruneBackups (l : List Nat) : List Nat :=
  if 10 < l.length then l.drop (l.length - 10) else l

/-- `DataManager.backup_data` (lines 78-91): copy the data file into a
timestamped backup, then prune the sorted backup listing to the newest
10.  The data file always exists (created by `__init__`), so the early
return is not taken. -/
def backup_data (name : Nat) (s : DMState) : DMState :=
  { s with backups := dmPruneBackups (sortedInsert name s.backups) }

/-- Result of `DataManager.update_problems_data`: the `(False, "No handles
found. Add handles using coalesce add <handle>")` early return, a
propagating exception from `get_solved_problems`, or the `(True, "Updated
solve cache with {n} problems in {...} seconds")` success return. -/
inductive DMOutcome where
  | noHandles
  | raised
  | updated (count : Nat)
deriving Repr, DecidableEq

/-- The success flag of the `(success, message)` pair
`update_problems_data` returns (`raised` has no return value). -/
def DMOutcome.success : DMOutcome → Bool
  | .noHandles => false
  | .raised => false
  | .updated _ => true

/-- The per-handle loop of `update_problems_data` (lines 230-238):
`all_problems.update(result)` on success, print-and-continue on a
`(False, message)` result, exception propagation on a raise. -/
def dmFetchLoop (remote : String → DMFetchOutcome) :
    List String → DMMap → Except Unit DMMap
  | [], acc => .ok acc
  | h :: hs, acc =>
    match get_solved_problems (remote h) with
    | .error () => .error ()
    | .ok none => dmFetchLoop remote hs acc
    | .ok (some result) => dmFetchLoop remote hs (updateMap acc result)

/-- `DataManager.update_problems_data` (lines 211-250): early return when
no handles are configured; otherwise back up, fetch-and-merge every
handle, and overwrite `problems.json` with
`{last_refresh: now, problems: all_problems}`.  The returned state is the
on-disk state when the function ends, also when an exception escapes
mid-loop (backup taken, data file untouched). -/
def update_problems_data (remote : String → DMFetchOutcome)
    (handles : List String) (backupName : Nat) (now : Int) (s : DMState) :
    DMState × DMOutcome :=
  if handles.isEmpty then (s, .noHandles)
  else
    let s1 := backup_data backupName s
    match dmFetchLoop remote handles [] with
    | .error () => (s1, .raised)
    | .ok all_problems =>
      ({ s1 with dataFile := { last_refresh := now, problems := all_problems } },
        .updated all_problems.length)

/-! ### `coalesce/data_manager.py` — catalog store (`all_problems.json`) -/

/-- One entry of the catalog store, as built by
`DataManager.get_all_problems` (lines 369-376). -/
structure CatRecord where
  problem_id : String
  problem_link : String
  rating : Int
  tags : List String
  contest_id : Int
  problem_code : String
deriving Repr, DecidableEq

/-- One element of `data["result"]["problems"]` in the
`problemset.problems` response. -/
structure CatRaw where
  contestId : Option Int
  index : Option String
  rating : Option Int
  tags : List String
deriving Repr

/-- The catalog entry built from one raw problem, or `none` when
`contestId` or `index` is missing (lines 361-362); no rating floor. -/
def catItemRecord (p : CatRaw) : Option CatRecord :=
  match p.contestId, p.index with
  | some cid, some idx =>
    some { problem_id := toString cid ++ idx
           problem_link := "https://codeforces.com/problemset/problem/" ++
             toString cid ++ "/" ++ idx
           rating := p.rating.getD 0
           tags := p.tags
           contest_id := cid
           problem_code := idx }
  | _, _ => none

/-- Contents of `all_problems.json`. -/
structure CatStore where
  last_refresh : Int
  problems : List CatRecord
deriving Repr, DecidableEq

/-- Outcome of the `problemset.problems` request inside the `try` block of
`DataManager.get_all_problems`: `raises` covers any exception (transport
error, decode error, malformed shape raising `KeyError`), `badStatus` the
`data["status"] != "OK"` branch. -/
inductive CatFetchOutcome where
  | raises
  | badStatus
  | ok (raw : List CatRaw)

/-- `DataManager.get_all_problems` (lines 322-401), with the remote
outcome passed in.  Returns the state of `all_problems.json` when the call
ends together with the returned problem list; on `badStatus` or `raises`
the cached data is returned and the store file is not written. -/
def get_all_problems (outcome : CatFetchOutcome) (force_refresh : Bool)
    (now : Int) (store : CatStore) : CatStore × List CatRecord :=
  if force_refresh ∨ 24 * 60 * 60 < now - store.last_refresh then
    match outcome with
    | .badStatus => (store, store.problems)
    | .raises => (store, store.problems)
    | .ok raw =>
      let problems := raw.filterMap catItemRecord
      ({ last_refresh := now, problems := problems }, problems)
  else (store, store.problems)

/-! ### `coalesce/data_manager.py` — filter/query engine -/

/-- The `filters` dict passed to `DataManager._matches_filters`.  A `none`
/ empty-list field models an absent key; `tag_and`/`tag_or` guard on
truthiness (`filters["tag_and"]`), so an empty list behaves exactly like
an absent key and the two need not be distinguished; `cid_range` also
guards `is not None`.  The `contest_id` filter value is compared through
`str()`, so it is carried as the string it is compared as. -/
structure Filters where
  rating_range : Option (Int × Int)
  tag_and : List String
  tag_or : List String
  time_range : Option (Int × Int)
  contest_id : Option String
  problem_id : Option String
  cid_range : Option (Int × Int)

/-- The dict with no filter keys. -/
def Filters.empty : Filters :=
  { rating_range := none, tag_and := [], tag_or := [], time_range := none
    contest_id := none, problem_id := none, cid_range := none }

/-- `str(problem.get("contest_id", ""))` from the `contest_id` check of
`_matches_filters` (line 429). -/
def dmContestIdStr (p : DMRecord) : String :=
  match p.contest_id with
  | none => ""
  | some c => toString c

/-- The `rating_range` check of `_matches_filters` (lines 406-409). -/
def checkRating (p : DMRecord) (rr : Option (Int × Int)) : Bool :=
  match rr with
  | none => true
  | some (lo, hi) => decide (lo ≤ p.rating) && decide (p.rating ≤ hi)

/-- The `tag_and` check (lines 412-414); an absent or empty list imposes
nothing. -/
def checkTagAnd (p : DMRecord) (l : List String) : Bool :=
  l.all fun t => p.tags.contains t

/-- The `tag_or` check (lines 417-419); the `filters["tag_or"]` truthiness
guard makes an empty list impose nothing. -/
def checkTagOr (p : DMRecord) (l : List String) : Bool :=
  l.isEmpty || l.any fun t => p.tags.contains t

/-- The `time_range` check (lines 422-425): only a record that HAS a
`submission_time` can be rejected; a record without one passes. -/
def checkTime (p : DMRecord) (tr : Option (Int × Int)) : Bool :=
  match tr with
  | none => true
  | some (s, e) =>
    match p.submission_time with
    | none => true
    | some t => decide (s ≤ t) && decide (t ≤ e)

/-- The `contest_id` check (lines 428-430): string equality of `str()`
images. -/
def checkContest (p : DMRecord) (c : Option String) : Bool :=
  match c with
  | none => true
  | some cs => dmContestIdStr p = cs

/-- The `problem_id` check (lines 433-435). -/
def checkPid (p : DMRecord) (pid : Option String) : Bool :=
  match pid with
  | none => true
  | some s => p.problem_id = s

/-- The `cid_range` check (lines 438-442): `problem.get("contest_id", 0)`
against inclusive integer bounds. -/
def checkCidRange (p : DMRecord) (cr : Option (Int × Int)) : Bool :=
  match cr with
  | none => true
  | some (lo, hi) =>
    let cid := p.contest_id.getD 0
    decide (lo ≤ cid) && decide (cid ≤ hi)

/-- `DataManager._matches_filters` (lines 403-444): a conjunction of
early-`return False` checks, one per present filter key. -/
def matches_filters (p : DMRecord) (f : Filters) : Bool :=
  checkRating p f.rating_range &&
  checkTagAnd p f.tag_and &&
  checkTagOr p f.tag_or &&
  checkTime p f.time_range &&
  checkContest p f.contest_id &&
  checkPid p f.problem_id &&
  checkCidRange p f.cid_range

/-- `DataManager.get_problems` (lines 252-268): `none` models a falsy
`filters` argument (`None` or the empty dict), which short-circuits to all
stored records; otherwise keep the records passing `_matches_filters`. -/
def get_problems (store : DMStore) (filters : Option Filters) : List DMRecord :=
  match filters with
  | none => store.problems.map (·.2)
  | some f => (store.problems.map (·.2)).filter (fun p => matches_filters p f)

/-! ### `src/cf_api.py` -/

/-- The nested `problem` object of one `user.status` item, as read by
`get_solved_for_handle` through `.get` accesses. -/
structure CFProblem where
  contestId : Option Int
  index : Option String
  rating : Option Int
  tags : List String
deriving Repr, DecidableEq

/-- One element of `data["result"]` as read by `get_solved_for_handle`. -/
structure CFItem where
  verdict : Option String
  id : Option Int
  creationTimeSeconds : Option Int
  problem : Option CFProblem
deriving Repr

/-- One record of `solved_problems.json`, as built by
`get_solved_for_handle` (lines 59-67); note `Rating` is stored as-is and
may be `None` — no rating floor. -/
structure CFRecord where
  problemIdentifier : String
  problemLink : String
  rating : Option Int
  tags : List String
  submissionId : Int
  submissionLink : String
  submissionTime : Option Int
deriving Repr, DecidableEq

/-- Outcome of the `user.status` request in `get_solved_for_handle`: the
function catches `RequestException` and `JSONDecodeError`, checks the
remote status, and checks the shape of `result`; every failure kind
returns `[]`. -/
inductive CFFetchOutcome where
  | transportError
  | decodeError
  | badStatus (comment : String)
  | badShape
  | ok (items : List CFItem)

/-- Whether the outcome is one of the four failure kinds. -/
def CFFetchOutcome.fails : CFFetchOutcome → Bool
  | .ok _ => false
  | _ => true

/-- The record `get_solved_for_handle` (lines 30-68) appends for one item,
or `none` when the item is skipped: verdict not `"OK"`, missing problem
object, missing `contestId`/`index`, or missing submission id. -/
def cfItemRecord (it : CFItem) : Option CFRecord :=
  if it.verdict = some "OK" then
    match it.problem with
    | none => none
    | some p =>
      match p.contestId, p.index with
      | some cid, some idx =>
        match it.id with
        | none => none
        | some sid =>
          some { problemIdentifier := toString cid ++ idx
                 problemLink := "https://codeforces.com/problemset/problem/" ++
                   toString cid ++ "/" ++ idx
                 rating := p.rating
                 tags := p.tags
                 submissionId := sid
                 submissionLink := "https://codeforces.com/contest/" ++
                   toString cid ++ "/submission/" ++ toString sid
                 submissionTime := it.creationTimeSeconds }
      | _, _ => none
  else none

/-- `get_solved_for_handle` (lines 7-69), with the request outcome passed
in: every failure kind returns `[]`, a well-formed OK response yields the
per-item records in order. -/
def get_solved_for_handle (out : CFFetchOutcome) : List CFRecord :=
  match out with
  | .ok items => items.filterMap cfItemRecord
  | _ => []

/-- The inner loop of `get_all_solved_problems` (lines 79-84): insert each
record keyed by its `Problem Identifier` unless the key is present. -/
def cfMergeList (acc : List (String × CFRecord)) (ps : List CFRecord) :
    List (String × CFRecord) :=
  ps.foldl (fun m p => insertIfAbsent m p.problemIdentifier p) acc

/-- The dict built by `get_all_solved_problems` (lines 71-85) over all
handles, in order.  (The `time.sleep` pacing between handles has no
bearing on the data and is elided.) -/
def cfMergeHandles (remote : String → CFFetchOutcome) (handles : List String) :
    List (String × CFRecord) :=
  handles.foldl (fun m h => cfMergeList m (get_solved_for_handle (remote h))) []

/-- `get_all_solved_problems`: the `.values()` of the merged dict. -/
def get_all_solved_problems (remote : String → CFFetchOutcome)
    (handles : List String) : List CFRecord :=
  (cfMergeHandles remote handles).map (·.2)

/-! ### `src/data_manager.py` -/

/-- State touched by `save_solved_problems_data`: the
`solved_problems.json` file (`none` when it does not exist yet) and the
backup directory, modelled like the `DataManager` one (timestamped names
`solved_problems_{timestamp}.json`, directory as its sorted listing). -/
structure SDMState where
  solvedFile : Option (List CFRecord)
  backups : List Nat
deriving Repr, DecidableEq

/-- `save_solved_problems_data` (lines 57-69): back up the current file if
it exists, then overwrite it with the new data.  No pruning of old
backups is performed. -/
def save_solved_problems_data (name : Nat) (problems_data : List CFRecord)
    (s : SDMState) : SDMState :=
  { solvedFile := some problems_data
    backups :=
      match s.solvedFile with
      | some _ => sortedInsert name s.backups
      | none => s.backups }

/-! ### `coalesce.py` — the `pull` command and the `list` filters -/

/-- Result reported by the `pull` command of `coalesce.py`. -/
inductive PullResult where
  | noHandles
  | updated (count : Nat)
deriving Repr, DecidableEq

/-- `pull` (lines 19-33): with no configured handles it prints the
"No handles configured" message and returns without touching the store;
otherwise it fetches all handles and saves the result. -/
def pull (remote : String → CFFetchOutcome) (handles : List String)
    (backupName : Nat) (s : SDMState) : SDMState × PullResult :=
  if handles.isEmpty then (s, .noHandles)
  else
    let all_solved := get_all_solved_problems remote handles
    (save_solved_problems_data backupName all_solved s, .updated all_solved.length)

/-- The time filter of `list_problems` (`coalesce.py` lines 113-128): keep
a record only when its `Submission Time` is not `None` and the converted
timestamp lies within the inclusive `[start, end]` bounds.
(`datetime.fromtimestamp` is strictly monotone, so comparing converted
datetimes is comparing the timestamps.) -/
def cliTimeFilter (ps : List CFRecord) (start_time end_time : Int) :
    List CFRecord :=
  ps.filter fun p =>
    match p.submissionTime with
    | none => false
    | some t => decide (start_time ≤ t) && decide (t ≤ end_time)

/-- Python `str.startswith`, on strings as character lists (second
argument is the candidate starting segment). -/
def strStartsWith : List Char → List Char → Bool
  | _, [] => true
  | [], _ :: _ => false
  | c :: cs, d :: ds => c = d && strStartsWith cs ds

/-- `check_cid` (`coalesce.py` lines 150-156): the identifier must start
with the contest-id string, and the next character — if any — must not be
a digit (so the contest id is not a proper decimal prefix of a longer
one). -/
def check_cid (problem_identifier contest_id_str : List Char) : Bool :=
  if strStartsWith problem_identifier contest_id_str then
    match problem_identifier.drop contest_id_str.length with
    | [] => true
    | c :: _ => !c.isDigit
  else false

/-! ### `get_solved.py` -/

/-- One tuple appended by `get_solved.get_solved_problems`:
`(problem_id, contest_id, problem_code, rating, tags, submission_id,
submissionTime)`. -/
structure GSTuple where
  problem_id : String
  contest_id : Int
  problem_code : String
  rating : Int
  tags : List String
  submission_id : Int
  submissionTime : Option Int
deriving Repr, DecidableEq

/-- `merge_solved_problems` (`get_solved.py` lines 30-39), with each
fetched tuple list of each handle passed in: first handle to supply a
`problem_id` wins (`if problem_id not in merged_problems`). -/
def merge_solved_problems (fetched : String → List GSTuple)
    (handles : List String) : List (String × GSTuple) :=
  handles.foldl
    (fun m h => (fetched h).foldl (fun m2 t => insertIfAbsent m2 t.problem_id t) m)
    []

/-! ### Combining two filter dicts, and refresh sequences -/

/-- Union of two option-valued filter entries that are not both present:
the present one (the left one when both are). -/
def optMerge {β : Type} : Option β → Option β → Option β
  | some x, _ => some x
  | none, y => y

/-- Union of two list-valued filter entries that are not both non-empty. -/
def listMerge (l1 l2 : List String) : List String :=
  if l1.isEmpty then l2 else l1

/-- The filter dict holding the keys of both `f1` and `f2`. -/
def Filters.merge (f1 f2 : Filters) : Filters :=
  { rating_range := optMerge f1.rating_range f2.rating_range
    tag_and := listMerge f1.tag_and f2.tag_and
    tag_or := listMerge f1.tag_or f2.tag_or
    time_range := optMerge f1.time_range f2.time_range
    contest_id := optMerge f1.contest_id f2.contest_id
    problem_id := optMerge f1.problem_id f2.problem_id
    cid_range := optMerge f1.cid_range f2.cid_range }

/-- Two filter dicts with no key in common, so that `{f1, f2}` is a filter
set containing the predicates of both. -/
def FiltersDisjoint (f1 f2 : Filters) : Prop :=
  (f1.rating_range = none ∨ f2.rating_range = none) ∧
  (f1.tag_and = [] ∨ f2.tag_and = []) ∧
  (f1.tag_or = [] ∨ f2.tag_or = []) ∧
  (f1.time_range = none ∨ f2.time_range = none) ∧
  (f1.contest_id = none ∨ f2.contest_id = none) ∧
  (f1.problem_id = none ∨ f2.problem_id = none) ∧
  (f1.cid_range = none ∨ f2.cid_range = none)

/-- A sequence of `DataManager.update_problems_data` refreshes, one per
backup timestamp in `steps` (the data timestamp `now` plays no role in
the backup rotation). -/
def dmRefreshSeq (remote : String → DMFetchOutcome) (handles : List String)
    (steps : List Nat) (now : Int) (s : DMState) : DMState :=
  steps.foldl (fun st bn => (update_problems_data remote handles bn now st).1) s

/-- A sequence of `save_solved_problems_data` calls (the module-level
store), one per backup timestamp in `steps`. -/
def sdmSaveSeq (steps : List Nat) (ps : List CFRecord) (s : SDMState) : SDMState :=
  steps.foldl (fun st bn => save_solved_problems_data bn ps st) s

/-- The backup-directory evolution of a refresh sequence in isolation. -/
def backupFold (steps : List Nat) (l : List Nat) : List Nat :=
  steps.foldl (fun acc n => dmPruneBackups (sortedInsert n acc)) l

/-! ### Lemmas about the dict model -/

theorem lookup_setKey_self {α : Type} (m : List (String × α)) (k : String) (v : α) :
    (setKey m k v).lookup k = some v := by
  induction m with
  | nil => simp [setKey, List.lookup]
  | cons p ps ih =>
    by_cases h : p.1 = k
    · simp [setKey, h, List.lookup]
    · have hne : (k == p.1) = false := by
        simp [beq_iff_eq]
        intro hk
        exact h hk.symm
      simp [setKey, h, List.lookup, hne, ih]

theorem lookup_setKey_ne {α : Type} (m : List (String × α)) (k : String) (v : α)
    (k2 : String) (h : k2 ≠ k) :
    (setKey m k v).lookup k2 = m.lookup k2 := by
  induction m with
  | nil =>
    have hne : (k2 == k) = false := by simp [beq_iff_eq, h]
    simp [setKey, List.lookup, hne]
  | cons p ps ih =>
    by_cases hp : p.1 = k
    · subst hp
      have hne : (k2 == p.1) = false := by simp [beq_iff_eq, h]
      simp [setKey, List.lookup, hne]
    · simp only [setKey, if_neg hp]
      by_cases hk2 : k2 = p.1
      · simp [List.lookup, hk2]
      · have hne : (k2 == p.1) = false := by simp [beq_iff_eq, hk2]
        simp [List.lookup, hne, ih]

theorem lookup_append_pair {α : Type} (m : List (String × α)) (k k2 : String) (v : α) :
    (m ++ [(k, v)]).lookup k2 =
      match m.lookup k2 with
      | some w => some w
      | none => if k2 = k then some v else none := by
  induction m with
  | nil =>
    by_cases h : k2 = k
    · simp [List.lookup, h]
    · have hne : (k2 == k) = false := by simp [beq_iff_eq, h]
      simp [List.lookup, hne, h]
  | cons p ps ih =>
    by_cases h : k2 = p.1
    · simp [List.lookup, h]
    · have hne : (k2 == p.1) = false := by simp [beq_iff_eq, h]
      simp [List.lookup, hne, ih]

theorem lookup_insertIfAbsent_preserve {α : Type} (m : List (String × α))
    (k k2 : String) (v w : α) (h : m.lookup k2 = some w) :
    (insertIfAbsent m k v).lookup k2 = some w := by
  unfold insertIfAbsent
  split
  · exact h
  · rw [lookup_append_pair, h]

theorem lookup_insertIfAbsent_new {α : Type} (m : List (String × α))
    (k : String) (v : α) (h : m.lookup k = none) :
    (insertIfAbsent m k v).lookup k = some v := by
  unfold insertIfAbsent
  rw [h]
  simp only [Option.isSome_none, Bool.false_eq_true, if_false]
  rw [lookup_append_pair, h]
  simp

theorem lookup_insertIfAbsent_ne {α : Type} (m : List (String × α))
    (k k2 : String) (v : α) (h : k2 ≠ k) :
    (insertIfAbsent m k v).lookup k2 = m.lookup k2 := by
  unfold insertIfAbsent
  split
  · rfl
  · rw [lookup_append_pair]
    cases hm : m.lookup k2 <;> simp [h]

theorem lookup_eq_none_of_not_mem_keys {α : Type} (m : List (String × α))
    (k : String) (h : k ∉ m.map Prod.fst) : m.lookup k = none := by
  induction m with
  | nil => rfl
  | cons p ps ih =>
    simp only [List.map_cons, List.mem_cons, not_or] at h
    have hne : (k == p.1) = false := by simp [beq_iff_eq, h.1]
    simp [List.lookup, hne, ih h.2]

theorem not_mem_keys_of_lookup_none {α : Type} (m : List (String × α))
    (k : String) (h : m.lookup k = none) : k ∉ m.map Prod.fst := by
  induction m with
  | nil => simp
  | cons p ps ih =>
    by_cases hk : k = p.1
    · simp [List.lookup, hk] at h
    · have hne : (k == p.1) = false := by simp [beq_iff_eq, hk]
      simp only [List.lookup, hne] at h
      simp [hk, ih h]

theorem lookup_updateMap {α : Type} (m2 m1 : List (String × α)) (k : String)
    (hnd : (m2.map Prod.fst).Nodup) :
    (updateMap m1 m2).lookup k =
      match m2.lookup k with
      | some v => some v
      | none => m1.lookup k := by
  induction m2 generalizing m1 with
  | nil => rfl
  | cons p rest ih =>
    simp only [List.map_cons, List.nodup_cons] at hnd
    have step : updateMap m1 (p :: rest) = updateMap (setKey m1 p.1 p.2) rest := rfl
    rw [step, ih _ hnd.2]
    by_cases hk : k = p.1
    · subst hk
      rw [lookup_eq_none_of_not_mem_keys rest _ hnd.1]
      simp [List.lookup, lookup_setKey_self]
    · have hne : (k == p.1) = false := by simp [beq_iff_eq, hk]
      rw [lookup_setKey_ne _ _ _ _ hk]
      simp [List.lookup, hne]

theorem keys_insertIfAbsent_nodup {α : Type} (m : List (String × α))
    (k : String) (v : α) (h : (m.map Prod.fst).Nodup) :
    ((insertIfAbsent m k v).map Prod.fst).Nodup := by
  unfold insertIfAbsent
  split
  · exact h
  · next hn =>
    have hnone : m.lookup k = none := by
      cases hm : m.lookup k
      · rfl
      · rw [hm] at hn; simp at hn
    have hmem := not_mem_keys_of_lookup_none m k hnone
    simp [List.nodup_append, h, hmem]

theorem keys_dmProcessItems_nodup (items : List DMItem) (m : DMMap)
    (h : (m.map Prod.fst).Nodup) :
    ((dmProcessItems items m).map Prod.fst).Nodup := by
  induction items generalizing m with
  | nil => exact h
  | cons it its ih =>
    unfold dmProcessItems
    cases dmItemRecord it with
    | none => exact ih m h
    | some kr => exact ih _ (keys_insertIfAbsent_nodup m kr.1 kr.2 h)

theorem lookup_foldl_insertIfAbsent {α : Type} (key : α → String)
    (ps : List α) (acc : List (String × α)) (k : String) :
    ((ps.foldl (fun m p => insertIfAbsent m (key p) p) acc).lookup k) =
      firstLookup (acc.lookup k) (ps.find? (fun p => key p == k)) := by
  induction ps generalizing acc with
  | nil =>
    simp only [List.foldl_nil]
    cases h : acc.lookup k <;> simp [h, List.find?, firstLookup]
  | cons p rest ih =>
    simp only [List.foldl_cons]
    rw [ih]
    cases hacc : acc.lookup k with
    | some v =>
      rw [lookup_insertIfAbsent_preserve acc (key p) k p v hacc]
      rfl
    | none =>
      by_cases hk : k = key p
      · subst hk
        rw [lookup_insertIfAbsent_new acc _ p hacc]
        simp [List.find?, firstLookup]
      · rw [lookup_insertIfAbsent_ne acc _ _ p hk, hacc]
        have hne : (key p == k) = false := by
          simp only [beq_eq_false_iff_ne, ne_eq]
          exact fun hh => hk hh.symm
        simp [List.find?, hne, firstLookup]

theorem mem_setKey {α : Type} (m : List (String × α)) (k : String) (v : α)
    (kv : String × α) (h : kv ∈ setKey m k v) : kv ∈ m ∨ kv = (k, v) := by
  induction m with
  | nil => simpa [setKey] using h
  | cons p ps ih =>
    by_cases hp : p.1 = k
    · simp only [setKey, if_pos hp, List.mem_cons] at h
      rcases h with h | h
      · exact Or.inr h
      · exact Or.inl (List.mem_cons_of_mem p h)
    · simp only [setKey, if_neg hp, List.mem_cons] at h
      rcases h with h | h
      · exact Or.inl (h ▸ List.mem_cons_self p ps)
      · rcases ih h with h2 | h2
        · exact Or.inl (List.mem_cons_of_mem p h2)
        · exact Or.inr h2

theorem mem_updateMap {α : Type} (m2 m1 : List (String × α)) (kv : String × α)
    (h : kv ∈ updateMap m1 m2) : kv ∈ m1 ∨ kv ∈ m2 := by
  induction m2 generalizing m1 with
  | nil => exact Or.inl h
  | cons p rest ih =>
    have step : updateMap m1 (p :: rest) = updateMap (setKey m1 p.1 p.2) rest := rfl
    rw [step] at h
    rcases ih _ h with h2 | h2
    · rcases mem_setKey m1 p.1 p.2 kv h2 with h3 | h3
      · exact Or.inl h3
      · exact Or.inr (by simp [h3])
    · exact Or.inr (List.mem_cons_of_mem p h2)

theorem mem_insertIfAbsent {α : Type} (m : List (String × α)) (k : String)
    (v : α) (kv : String × α) (h : kv ∈ insertIfAbsent m k v) :
    kv ∈ m ∨ kv = (k, v) := by
  unfold insertIfAbsent at h
  split at h
  · exact Or.inl h
  · simpa using h

theorem mem_dmProcessItems (items : List DMItem) (m : DMMap) (kv : String × DMRecord)
    (h : kv ∈ dmProcessItems items m) :
    kv ∈ m ∨ ∃ it ∈ items, dmItemRecord it = some kv := by
  induction items generalizing m with
  | nil => exact Or.inl h
  | cons it its ih =>
    unfold dmProcessItems at h
    cases hrec : dmItemRecord it with
    | none =>
      rw [hrec] at h
      rcases ih m h with h2 | ⟨it2, hm, he⟩
      · exact Or.inl h2
      · exact Or.inr ⟨it2, List.mem_cons_of_mem it hm, he⟩
    | some kr =>
      rw [hrec] at h
      rcases ih _ h with h2 | ⟨it2, hm, he⟩
      · rcases mem_insertIfAbsent m kr.1 kr.2 kv h2 with h3 | h3
        · exact Or.inl h3
        · exact Or.inr ⟨it, List.mem_cons_self it its, by rw [hrec, h3]⟩
      · exact Or.inr ⟨it2, List.mem_cons_of_mem it hm, he⟩

theorem dmItemRecord_rating (it : DMItem) (kv : String × DMRecord)
    (h : dmItemRecord it = some kv) : 800 ≤ kv.2.rating := by
  unfold dmItemRecord at h
  split at h
  · cases hc : it.problemContestId with
    | none => rw [hc] at h; cases h
    | some cid =>
      rw [hc] at h
      dsimp only [] at h
      split at h
      · next hr =>
        cases h
        simpa using hr
      · cases h
  · cases h

theorem dmFetchLoop_rating (remote : String → DMFetchOutcome)
    (handles : List String) (acc m : DMMap)
    (hloop : dmFetchLoop remote handles acc = .ok m)
    (hacc : ∀ kv ∈ acc, 800 ≤ kv.2.rating) :
    ∀ kv ∈ m, 800 ≤ kv.2.rating := by
  induction handles generalizing acc with
  | nil =>
    cases hloop
    exact hacc
  | cons h hs ih =>
    unfold dmFetchLoop at hloop
    cases hout : remote h with
    | raises => rw [hout] at hloop; simp [get_solved_problems] at hloop
    | apiError c =>
      rw [hout] at hloop
      exact ih acc hloop hacc
    | ok items =>
      rw [hout] at hloop
      refine ih _ hloop ?_
      intro kv hkv
      rcases mem_updateMap _ acc kv hkv with h2 | h2
      · exact hacc kv h2
      · rcases mem_dmProcessItems items [] kv h2 with h3 | ⟨it, _, he⟩
        · cases h3
        · exact dmItemRecord_rating it kv he

/-! ### Lemmas about the refresh loops -/

theorem dmFetchLoop_allApiError (remote : String → DMFetchOutcome)
    (handles : List String) (acc : DMMap)
    (h : ∀ g ∈ handles, (remote g).isApiError = true) :
    dmFetchLoop remote handles acc = .ok acc := by
  induction handles with
  | nil => rfl
  | cons g gs ih =>
    have hg := h g (List.mem_cons_self g gs)
    unfold dmFetchLoop
    cases hout : remote g <;> rw [hout] at hg <;>
      simp [DMFetchOutcome.isApiError] at hg
    exact ih fun g2 hm => h g2 (List.mem_cons_of_mem g hm)

theorem dmFetchLoop_cons (remote : String → DMFetchOutcome) (g : String)
    (gs : List String) (acc : DMMap) :
    dmFetchLoop remote (g :: gs) acc =
      match get_solved_problems (remote g) with
      | .error _ => .error ()
      | .ok none => dmFetchLoop remote gs acc
      | .ok (some result) => dmFetchLoop remote gs (updateMap acc result) := rfl

theorem dmFetchLoop_skip_apiError (remote : String → DMFetchOutcome)
    (handles : List String) (acc : DMMap) :
    dmFetchLoop remote handles acc =
      dmFetchLoop remote (handles.filter fun g => !(remote g).isApiError) acc := by
  induction handles generalizing acc with
  | nil => rfl
  | cons g gs ih =>
    cases hout : remote g with
    | raises =>
      have hfil : (List.filter (fun g2 => !(remote g2).isApiError) (g :: gs)) =
          g :: List.filter (fun g2 => !(remote g2).isApiError) gs := by
        simp [List.filter_cons, hout, DMFetchOutcome.isApiError]
      rw [hfil, dmFetchLoop_cons, dmFetchLoop_cons, hout]
      rfl
    | apiError c =>
      have hfil : (List.filter (fun g2 => !(remote g2).isApiError) (g :: gs)) =
          List.filter (fun g2 => !(remote g2).isApiError) gs := by
        simp [List.filter_cons, hout, DMFetchOutcome.isApiError]
      rw [hfil, dmFetchLoop_cons, hout]
      simp only [get_solved_problems]
      exact ih acc
    | ok items =>
      have hfil : (List.filter (fun g2 => !(remote g2).isApiError) (g :: gs)) =
          g :: List.filter (fun g2 => !(remote g2).isApiError) gs := by
        simp [List.filter_cons, hout, DMFetchOutcome.isApiError]
      rw [hfil, dmFetchLoop_cons, dmFetchLoop_cons, hout]
      simp only [get_solved_problems]
      exact ih _

theorem dmFetchLoop_raises (remote : String → DMFetchOutcome)
    (pre : List String) (h : String) (post : List String) (acc : DMMap)
    (hpre : ∀ g ∈ pre, remote g ≠ .raises) (hh : remote h = .raises) :
    dmFetchLoop remote (pre ++ h :: post) acc = .error () := by
  induction pre generalizing acc with
  | nil =>
    rw [List.nil_append, dmFetchLoop_cons, hh]
    rfl
  | cons g gs ih =>
    have hg := hpre g (List.mem_cons_self g gs)
    have hrest : ∀ g2 ∈ gs, remote g2 ≠ .raises :=
      fun g2 hm => hpre g2 (List.mem_cons_of_mem g hm)
    rw [List.cons_append, dmFetchLoop_cons]
    cases hout : remote g with
    | raises => exact absurd hout hg
    | apiError c =>
      simp only [get_solved_problems]
      exact ih acc hrest
    | ok items =>
      simp only [get_solved_problems]
      exact ih _ hrest

theorem cf_fails_empty (o : CFFetchOutcome) (h : o.fails = true) :
    get_solved_for_handle o = [] := by
  cases o <;> simp [CFFetchOutcome.fails] at h ⊢ <;> rfl

theorem cfMergeHandles_skip_failures (remote : String → CFFetchOutcome)
    (handles : List String) :
    cfMergeHandles remote handles =
      cfMergeHandles remote (handles.filter fun g => !(remote g).fails) := by
  unfold cfMergeHandles
  suffices hgen : ∀ (hs : List String) (acc : List (String × CFRecord)),
      hs.foldl (fun m h => cfMergeList m (get_solved_for_handle (remote h))) acc =
      (hs.filter fun g => !(remote g).fails).foldl
        (fun m h => cfMergeList m (get_solved_for_handle (remote h))) acc by
    exact hgen handles []
  intro hs
  induction hs with
  | nil => intro acc; rfl
  | cons g gs ih =>
    intro acc
    by_cases hf : (remote g).fails = true
    · have hfil : (List.filter (fun g2 => !(remote g2).fails) (g :: gs)) =
          List.filter (fun g2 => !(remote g2).fails) gs := by
        simp [List.filter_cons, hf]
      rw [hfil]
      simp only [List.foldl_cons]
      rw [cf_fails_empty _ hf]
      exact ih acc
    · have hfil : (List.filter (fun g2 => !(remote g2).fails) (g :: gs)) =
          g :: List.filter (fun g2 => !(remote g2).fails) gs := by
        simp [List.filter_cons, Bool.eq_false_iff.mpr hf]
      rw [hfil]
      simp only [List.foldl_cons]
      exact ih _

/-! ### Lemmas about the backup rotation -/

theorem dmPruneBackups_eq_drop (l : List Nat) :
    dmPruneBackups l = l.drop (l.length - 10) := by
  unfold dmPruneBackups
  split
  · rfl
  · next h =>
    have h0 : l.length - 10 = 0 := by omega
    rw [h0, List.drop_zero]

theorem sortedInsert_append (n : Nat) (l : List Nat) (h : ∀ b ∈ l, b < n) :
    sortedInsert n l = l ++ [n] := by
  induction l with
  | nil => rfl
  | cons b bs ih =>
    have hb := h b (List.mem_cons_self b bs)
    unfold sortedInsert
    rw [if_neg (by omega), if_neg (by omega),
      ih fun x hx => h x (List.mem_cons_of_mem b hx)]
    rfl

theorem update_problems_data_backups (remote : String → DMFetchOutcome)
    (handles : List String) (bn : Nat) (now : Int) (s : DMState)
    (h : handles ≠ []) :
    ((update_problems_data remote handles bn now s).1).backups =
      dmPruneBackups (sortedInsert bn s.backups) := by
  cases handles with
  | nil => exact absurd rfl h
  | cons g gs =>
    unfold update_problems_data
    simp only [List.isEmpty_cons, Bool.false_eq_true, if_false]
    cases hloop : dmFetchLoop remote (g :: gs) [] <;> simp [hloop, backup_data]

theorem dmRefreshSeq_backups (remote : String → DMFetchOutcome)
    (handles : List String) (steps : List Nat) (now : Int) (s : DMState)
    (h : handles ≠ []) :
    (dmRefreshSeq remote handles steps now s).backups = backupFold steps s.backups := by
  induction steps generalizing s with
  | nil => rfl
  | cons n rest ih =>
    simp only [dmRefreshSeq, List.foldl_cons] at *
    rw [ih ((update_problems_data remote handles n now s).1),
      update_problems_data_backups remote handles n now s h]
    rfl

theorem backupFold_eq_drop (steps : List Nat) (l : List Nat)
    (hne : steps ≠ []) (hinc : steps.Pairwise (· < ·))
    (hdom : ∀ n ∈ steps, ∀ b ∈ l, b < n) :
    backupFold steps l = (l ++ steps).drop (l.length + steps.length - 10) := by
  induction steps generalizing l with
  | nil => exact absurd rfl hne
  | cons n rest ih =>
    have hins : sortedInsert n l = l ++ [n] :=
      sortedInsert_append n l (hdom n (List.mem_cons_self n rest))
    have hstep : backupFold (n :: rest) l =
        backupFold rest (dmPruneBackups (l ++ [n])) := by
      simp only [backupFold, List.foldl_cons, hins]
    rw [hstep, dmPruneBackups_eq_drop]
    have hxlen : (l ++ [n]).length = l.length + 1 := by simp
    cases rest with
    | nil =>
      simp only [backupFold, List.foldl_nil, List.length_cons, List.length_nil, hxlen]
    | cons r rs =>
      have hpair := List.pairwise_cons.mp hinc
      have hdom2 : ∀ m ∈ r :: rs, ∀ b ∈ (l ++ [n]).drop ((l ++ [n]).length - 10),
          b < m := by
        intro m hm b hb
        have hbx : b ∈ l ++ [n] := List.mem_of_mem_drop hb
        rcases List.mem_append.mp hbx with hbl | hbn
        · exact hdom m (List.mem_cons_of_mem n hm) b hbl
        · have : b = n := by simpa using hbn
          subst this
          exact hpair.1 m hm
      have := ih ((l ++ [n]).drop ((l ++ [n]).length - 10)) (by simp) hpair.2 hdom2
      rw [this]
      have hk : (l ++ [n]).length - 10 ≤ (l ++ [n]).length := by omega
      rw [← List.drop_append_of_le_length hk, List.drop_drop]
      have hassoc : (l ++ [n]) ++ r :: rs = l ++ n :: r :: rs := by
        rw [List.append_assoc]
        rfl
      rw [hassoc]
      congr 1
      rw [List.length_drop, hxlen]
      simp only [List.length_cons]
      omega

theorem sdmSaveSeq_backups (steps : List Nat) (ps : List CFRecord) (s : SDMState)
    (hfile : s.solvedFile.isSome = true) (hinc : steps.Pairwise (· < ·))
    (hdom : ∀ n ∈ steps, ∀ b ∈ s.backups, b < n) :
    (sdmSaveSeq steps ps s).backups = s.backups ++ steps := by
  induction steps generalizing s with
  | nil => simp [sdmSaveSeq]
  | cons n rest ih =>
    cases hf : s.solvedFile with
    | none => rw [hf] at hfile; cases hfile
    | some d =>
      have hstep : save_solved_problems_data n ps s =
          { solvedFile := some ps, backups := sortedInsert n s.backups } := by
        simp [save_solved_problems_data, hf]
      have hins : sortedInsert n s.backups = s.backups ++ [n] :=
        sortedInsert_append n s.backups (hdom n (List.mem_cons_self n rest))
      have hpair := List.pairwise_cons.mp hinc
      have hdom2 : ∀ m ∈ rest, ∀ b ∈ s.backups ++ [n], b < m := by
        intro m hm b hb
        rcases List.mem_append.mp hb with hbl | hbn
        · exact hdom m (List.mem_cons_of_mem n hm) b hbl
        · have : b = n := by simpa using hbn
          subst this
          exact hpair.1 m hm
      have := ih { solvedFile := some ps, backups := s.backups ++ [n] }
        (by simp) hpair.2 hdom2
      simp only [sdmSaveSeq, List.foldl_cons, hstep, hins] at *
      rw [this, List.append_assoc]
      rfl

/-! ### Lemmas about `check_cid` -/

theorem check_cid_step (d : Char) (ds es rest : List Char) :
    check_cid ((d :: ds) ++ rest) (d :: es) = check_cid (ds ++ rest) es := by
  simp only [check_cid, List.cons_append, strStartsWith, decide_eq_true_eq]
  simp only [List.length_cons, List.drop_succ_cons]
  by_cases hsw : strStartsWith (ds ++ rest) es = true
  · simp [hsw]
  · simp [Bool.eq_false_iff.mp (by simpa using hsw)]

theorem check_cid_characterization (s2 : List Char) :
    ∀ (s idxRest : List Char) (c0 : Char),
      (∀ c ∈ s, c.isDigit = true) → (∀ c ∈ s2, c.isDigit = true) →
      c0.isDigit = false →
      (check_cid (s ++ c0 :: idxRest) s2 = true ↔ s2 = s) := by
  induction s2 with
  | nil =>
    intro s idxRest c0 hs _ hc0
    cases s with
    | nil =>
      simp [check_cid, strStartsWith, hc0]
    | cons d ds =>
      have hd := hs d (List.mem_cons_self d ds)
      constructor
      · intro h
        simp [check_cid, strStartsWith, hd] at h
      · intro h
        cases h
  | cons e es ih =>
    intro s idxRest c0 hs hs2 hc0
    have he := hs2 e (List.mem_cons_self e es)
    cases s with
    | nil =>
      have hne : c0 ≠ e := by
        intro h
        rw [h, he] at hc0
        cases hc0
      constructor
      · intro h
        simp [check_cid, strStartsWith, hne] at h
      · intro h
        cases h
    | cons d ds =>
      by_cases hde : d = e
      · subst hde
        rw [check_cid_step d ds es (c0 :: idxRest)]
        rw [ih ds idxRest c0 (fun c hc => hs c (List.mem_cons_of_mem d hc))
          (fun c hc => hs2 c (List.mem_cons_of_mem d hc)) hc0]
        simp
      · have hne : ¬ e = d := fun h => hde h.symm
        constructor
        · intro h
          simp [check_cid, List.cons_append, strStartsWith, hne] at h
          exact absurd h.1.1 hde
        · intro h
          rw [List.cons_eq_cons] at h
          exact absurd h.1.symm hde

/-! ### Lemmas about filter conjunction -/

theorem optMerge_check {β : Type} (chk : Option β → Bool) (hnone : chk none = true)
    (t1 t2 : Option β) (hd : t1 = none ∨ t2 = none)
    (h : chk (optMerge t1 t2) = true) : chk t1 = true ∧ chk t2 = true := by
  rcases hd with hd | hd
  · subst hd
    exact ⟨hnone, h⟩
  · subst hd
    cases t1 with
    | none => exact ⟨h, hnone⟩
    | some x => exact ⟨h, hnone⟩

theorem listMerge_check (chk : List String → Bool) (hnil : chk [] = true)
    (l1 l2 : List String) (hd : l1 = [] ∨ l2 = [])
    (h : chk (listMerge l1 l2) = true) : chk l1 = true ∧ chk l2 = true := by
  rcases hd with hd | hd
  · subst hd
    exact ⟨hnil, by simpa [listMerge] using h⟩
  · subst hd
    cases l1 with
    | nil => exact ⟨by simpa [listMerge] using h, hnil⟩
    | cons x xs => exact ⟨by simpa [listMerge] using h, hnil⟩

theorem matches_filters_merge (p : DMRecord) (f1 f2 : Filters)
    (hd : FiltersDisjoint f1 f2)
    (h : matches_filters p (f1.merge f2) = true) :
    matches_filters p f1 = true ∧ matches_filters p f2 = true := by
  obtain ⟨d1, d2, d3, d4, d5, d6, d7⟩ := hd
  simp only [matches_filters, Filters.merge, Bool.and_eq_true] at h ⊢
  obtain ⟨⟨⟨⟨⟨⟨h1, h2⟩, h3⟩, h4⟩, h5⟩, h6⟩, h7⟩ := h
  have c1 := optMerge_check (checkRating p) rfl _ _ d1 h1
  have c2 := listMerge_check (checkTagAnd p) rfl _ _ d2 h2
  have c3 := listMerge_check (checkTagOr p) rfl _ _ d3 h3
  have c4 := optMerge_check (checkTime p) rfl _ _ d4 h4
  have c5 := optMerge_check (checkContest p) rfl _ _ d5 h5
  have c6 := optMerge_check (checkPid p) rfl _ _ d6 h6
  have c7 := optMerge_check (checkCidRange p) rfl _ _ d7 h7
  exact ⟨⟨⟨⟨⟨⟨⟨c1.1, c2.1⟩, c3.1⟩, c4.1⟩, c5.1⟩, c6.1⟩, c7.1⟩,
    ⟨⟨⟨⟨⟨⟨c1.2, c2.2⟩, c3.2⟩, c4.2⟩, c5.2⟩, c6.2⟩, c7.2⟩⟩

theorem matches_filters_empty (p : DMRecord) :
    matches_filters p Filters.empty = true := rfl

/-! ### Claim theorems -/

/-- C9: with zero configured handles, a solved-store refresh is a no-op:
`DataManager.update_problems_data` returns the distinct "no handles"
outcome (whose success flag is `false`) with the store state unchanged,
and the module-level `pull` likewise reports its "no handles" outcome and
leaves `solved_problems.json` untouched. -/
theorem c9_zero_handles_refresh_noop :
    (∀ (remote : String → DMFetchOutcome) (bn : Nat) (now : Int) (s : DMState),
      update_problems_data remote [] bn now s = (s, DMOutcome.noHandles) ∧
      DMOutcome.noHandles.success = false) ∧
    (∀ (remote : String → CFFetchOutcome) (bn : Nat) (s : SDMState),
      pull remote [] bn s = (s, PullResult.noHandles)) :=
  ⟨fun _ _ _ _ => ⟨rfl, rfl⟩, fun _ _ _ => rfl⟩

/-- C10: with a non-empty handle list whose fetches all report failure
without raising (remote non-OK status), `update_problems_data` still backs
up the old store, overwrites it with `{last_refresh: now, problems: {}}`,
and reports success with count 0. -/
theorem c10_all_failed_fetches_clear_store
    (remote : String → DMFetchOutcome) (handles : List String)
    (bn : Nat) (now : Int) (s : DMState)
    (hne : handles ≠ [])
    (hfail : ∀ g ∈ handles, (remote g).isApiError = true) :
    update_problems_data remote handles bn now s =
      ({ dataFile := { last_refresh := now, problems := [] },
         backups := (backup_data bn s).backups }, DMOutcome.updated 0) := by
  cases handles with
  | nil => exact absurd rfl hne
  | cons g gs =>
    unfold update_problems_data
    simp only [List.isEmpty_cons, Bool.false_eq_true, if_false]
    rw [dmFetchLoop_allApiError remote (g :: gs) [] hfail]
    rfl

/-- Witness for C10: one handle whose fetch reports a non-OK status. -/
theorem c10_witness :
    update_problems_data (fun _ => DMFetchOutcome.apiError "err") ["a"] 1 7
      ⟨⟨5, []⟩, []⟩ = (⟨⟨7, []⟩, [1]⟩, DMOutcome.updated 0) := by
  have h := c10_all_failed_fetches_clear_store
    (fun _ => DMFetchOutcome.apiError "err") ["a"] 1 7 ⟨⟨5, []⟩, []⟩
    (by simp) (fun g _ => rfl)
  exact h

/-- C3: a catalog refresh attempt that fails (remote non-OK status, or any
exception during the fetch) returns the previously cached catalog and
leaves `all_problems.json` — including its `last_refresh` — unchanged. -/
theorem c3_catalog_refresh_failure_preserves_cache
    (outcome : CatFetchOutcome) (force_refresh : Bool) (now : Int)
    (store : CatStore)
    (h : outcome = CatFetchOutcome.raises ∨ outcome = CatFetchOutcome.badStatus) :
    get_all_problems outcome force_refresh now store = (store, store.problems) := by
  rcases h with h | h <;> subst h <;> unfold get_all_problems <;> split <;> rfl

/-- Witness for C3: a forced refresh hitting a non-OK status keeps the
cached store. -/
theorem c3_witness :
    get_all_problems CatFetchOutcome.badStatus true 999
        ⟨5, [⟨"1A", "", 500, [], 1, "A"⟩]⟩ =
      (⟨5, [⟨"1A", "", 500, [], 1, "A"⟩]⟩, [⟨"1A", "", 500, [], 1, "A"⟩]) := by
  exact c3_catalog_refresh_failure_preserves_cache CatFetchOutcome.badStatus true 999
    ⟨5, [⟨"1A", "", 500, [], 1, "A"⟩]⟩ (Or.inr rfl)

/-- C5: for disjoint filter dicts, a query with both predicates returns a
subset of the intersection of the single-predicate queries, and a query
with the empty filter set (falsy `filters` or the empty dict) returns all
records. -/
theorem c5_filter_conjunction :
    (∀ (store : DMStore) (f1 f2 : Filters) (p : DMRecord),
      FiltersDisjoint f1 f2 →
      p ∈ get_problems store (some (f1.merge f2)) →
      p ∈ get_problems store (some f1) ∧ p ∈ get_problems store (some f2)) ∧
    (∀ store : DMStore, get_problems store none = store.problems.map (·.2)) ∧
    (∀ store : DMStore,
      get_problems store (some Filters.empty) = store.problems.map (·.2)) := by
  refine ⟨?_, fun _ => rfl, ?_⟩
  · intro store f1 f2 p hd hp
    simp only [get_problems, List.mem_filter] at hp ⊢
    obtain ⟨hmem, hm⟩ := hp
    have hc := matches_filters_merge p f1 f2 hd hm
    exact ⟨⟨hmem, hc.1⟩, ⟨hmem, hc.2⟩⟩
  · intro store
    simp only [get_problems]
    exact List.filter_eq_self.mpr fun p _ => matches_filters_empty p

/-- Witness for C5: a rating filter and a tag filter, conjoined, on a
one-record store. -/
theorem c5_witness :
    (⟨"1A", "", 1000, ["dp"], 1, "", some 5, some 1, "A"⟩ : DMRecord) ∈
      get_problems ⟨0, [("1A", ⟨"1A", "", 1000, ["dp"], 1, "", some 5, some 1, "A"⟩)]⟩
        (some { Filters.empty with rating_range := some (0, 2000) }) ∧
    (⟨"1A", "", 1000, ["dp"], 1, "", some 5, some 1, "A"⟩ : DMRecord) ∈
      get_problems ⟨0, [("1A", ⟨"1A", "", 1000, ["dp"], 1, "", some 5, some 1, "A"⟩)]⟩
        (some { Filters.empty with tag_and := ["dp"] }) := by
  refine c5_filter_conjunction.1
    ⟨0, [("1A", ⟨"1A", "", 1000, ["dp"], 1, "", some 5, some 1, "A"⟩)]⟩
    { Filters.empty with rating_range := some (0, 2000) }
    { Filters.empty with tag_and := ["dp"] }
    ⟨"1A", "", 1000, ["dp"], 1, "", some 5, some 1, "A"⟩
    ⟨Or.inr rfl, Or.inl rfl, Or.inl rfl, Or.inl rfl, Or.inl rfl, Or.inl rfl,
      Or.inl rfl⟩ (by decide)

/-- C6 counterexample: the claimed characterization of the `time_range`
filter — kept iff `submission_time` is present and within bounds — is
false for `DataManager._matches_filters`: a record with no
`submission_time` IS kept by the filter. -/
theorem c6_counterexample :
    ¬ (∀ (p : DMRecord) (s e : Int),
        matches_filters p { Filters.empty with time_range := some (s, e) } = true ↔
          ∃ t, p.submission_time = some t ∧ s ≤ t ∧ t ≤ e) := by
  intro h
  obtain ⟨t, ht, _⟩ :=
    (h ⟨"1A", "", 1000, [], 1, "", none, some 1, "A"⟩ 0 10).mp (by decide)
  cases ht

/-- C6 amended: in `DataManager._matches_filters` a `time_range` filter
keeps a record iff its `submission_time` is absent OR present and within
the inclusive bounds; in the `list_problems` time filter of `coalesce.py`
a record is kept iff its submission time is present and within the
inclusive bounds. -/
theorem c6_time_range_semantics :
    (∀ (p : DMRecord) (s e : Int),
      matches_filters p { Filters.empty with time_range := some (s, e) } = true ↔
        (p.submission_time = none ∨
          ∃ t, p.submission_time = some t ∧ s ≤ t ∧ t ≤ e)) ∧
    (∀ (ps : List CFRecord) (s e : Int) (p : CFRecord),
      p ∈ cliTimeFilter ps s e ↔
        p ∈ ps ∧ ∃ t, p.submissionTime = some t ∧ s ≤ t ∧ t ≤ e) := by
  constructor
  · intro p s e
    simp only [matches_filters, Filters.empty, checkRating, checkTagAnd, checkTagOr,
      checkTime, checkContest, checkPid, checkCidRange, List.all_nil, List.isEmpty_nil,
      Bool.and_eq_true, Bool.true_and, Bool.and_true, Bool.true_or, Bool.or_eq_true]
    cases hst : p.submission_time with
    | none => simp
    | some t => simp [Bool.and_eq_true, decide_eq_true_eq, and_assoc]
  · intro ps s e p
    simp only [cliTimeFilter, List.mem_filter]
    cases hst : p.submissionTime with
    | none => simp [hst]
    | some t => simp [hst, and_assoc]

/-- Witness for C6: a record whose submission time 5 lies in [0, 10] is
kept by both filters. -/
theorem c6_witness :
    matches_filters ⟨"1A", "", 1000, [], 1, "", some 5, some 1, "A"⟩
      { Filters.empty with time_range := some (0, 10) } = true :=
  (c6_time_range_semantics.1 ⟨"1A", "", 1000, [], 1, "", some 5, some 1, "A"⟩ 0 10).mpr
    (Or.inr ⟨5, rfl, by decide, by decide⟩)

/-- C7: for a problem identifier built from a digits-only contest string
followed by an index that does not start with a digit, `check_cid` accepts
a digits-only contest-id filter string iff it equals the contest part of
the identifier — a filter value that is a proper decimal prefix (such as
`17` against contest `1700`) never matches; and the `contest_id` filter of
`_matches_filters` accepts exactly string equality of the `str()` images. -/
theorem c7_cid_boundary (s s2 idxRest : List Char) (c0 : Char)
    (hs : ∀ c ∈ s, c.isDigit = true) (hs2 : ∀ c ∈ s2, c.isDigit = true)
    (hc0 : c0.isDigit = false) :
    (check_cid (s ++ c0 :: idxRest) s2 = true ↔ s2 = s) ∧
    (∀ (p : DMRecord) (cs : String),
      checkContest p (some cs) = true ↔ dmContestIdStr p = cs) := by
  refine ⟨check_cid_characterization s2 s idxRest c0 hs hs2 hc0, ?_⟩
  intro p cs
  simp [checkContest]

/-- Witness for C7: filtering `cid=17` does not match `"1700A"`, while
`cid=1700` does. -/
theorem c7_witness :
    check_cid ['1', '7', '0', '0', 'A'] ['1', '7'] = false ∧
    check_cid ['1', '7', '0', '0', 'A'] ['1', '7', '0', '0'] = true := by
  have h17 := (c7_cid_boundary ['1', '7', '0', '0'] ['1', '7'] [] 'A'
    (by decide) (by decide) (by decide)).1
  have h1700 := (c7_cid_boundary ['1', '7', '0', '0'] ['1', '7', '0', '0'] [] 'A'
    (by decide) (by decide) (by decide)).1
  constructor
  · cases hb : check_cid ['1', '7', '0', '0', 'A'] ['1', '7'] with
    | false => rfl
    | true => exact absurd (h17.mp hb) (by decide)
  · exact h1700.mpr rfl

theorem lookup_cfMergeList (acc : List (String × CFRecord)) (ps : List CFRecord)
    (k : String) :
    (cfMergeList acc ps).lookup k =
      firstLookup (acc.lookup k) (ps.find? (fun p => p.problemIdentifier == k)) := by
  unfold cfMergeList
  exact lookup_foldl_insertIfAbsent (fun p => p.problemIdentifier) ps acc k

theorem lookup_gsFold (acc : List (String × GSTuple)) (ts : List GSTuple)
    (k : String) :
    ((ts.foldl (fun m t => insertIfAbsent m t.problem_id t) acc).lookup k) =
      firstLookup (acc.lookup k) (ts.find? (fun t => t.problem_id == k)) := by
  exact lookup_foldl_insertIfAbsent (fun t => t.problem_id) ts acc k

/-- C1 counterexample: handles `["a", "b"]` both solved problem `1700A`
(submission ids 1 and 2, the timestamp of B the earlier one); after
`DataManager.update_problems_data` the retained `submission_id`
is that of B (`dict.update` overwrites), not that of A as claimed. -/
theorem c1_counterexample :
    ((update_problems_data
        (fun h => if h = "a"
          then DMFetchOutcome.ok [⟨"OK", 1, some 1700, "A", some 2000, [], some 100⟩]
          else DMFetchOutcome.ok [⟨"OK", 2, some 1700, "A", some 2000, [], some 50⟩])
        ["a", "b"] 1 0 ⟨⟨0, []⟩, []⟩).1.dataFile.problems.lookup "1700A").map
      (fun r => r.submission_id) = some 2 ∧ (2 : Int) ≠ 1 := by
  constructor
  · rfl
  · decide

/-- C1 amended: when several handles solved the same problem, the record
retained by `DataManager.update_problems_data` is that of the LAST
fetching handle (its per-handle dicts are merged with `dict.update`, which
overwrites), while `cf_api.get_all_solved_problems` and
`get_solved.merge_solved_problems` retain the record of the FIRST handle,
regardless of timestamps. -/
theorem c1_merge_policy :
    (∀ (remote : String → DMFetchOutcome) (a b : String)
       (itemsA itemsB : List DMItem) (pid : String) (rA rB : DMRecord)
       (bn : Nat) (now : Int) (s : DMState),
      remote a = DMFetchOutcome.ok itemsA → remote b = DMFetchOutcome.ok itemsB →
      (dmProcessItems itemsA []).lookup pid = some rA →
      (dmProcessItems itemsB []).lookup pid = some rB →
      ((update_problems_data remote [a, b] bn now s).1.dataFile.problems).lookup pid =
        some rB) ∧
    (∀ (remote : String → CFFetchOutcome) (a b pid : String) (rA : CFRecord),
      (get_solved_for_handle (remote a)).find?
          (fun p => p.problemIdentifier == pid) = some rA →
      (cfMergeHandles remote [a, b]).lookup pid = some rA) ∧
    (∀ (fetched : String → List GSTuple) (a b pid : String) (tA : GSTuple),
      (fetched a).find? (fun t => t.problem_id == pid) = some tA →
      (merge_solved_problems fetched [a, b]).lookup pid = some tA) := by
  refine ⟨?_, ?_, ?_⟩
  · intro remote a b itemsA itemsB pid rA rB bn now s ha hb hA hB
    have hloop : dmFetchLoop remote [a, b] [] =
        .ok (updateMap (updateMap [] (dmProcessItems itemsA []))
          (dmProcessItems itemsB [])) := by
      rw [dmFetchLoop_cons, ha]
      simp only [get_solved_problems]
      rw [dmFetchLoop_cons, hb]
      simp only [get_solved_problems]
      rfl
    unfold update_problems_data
    simp only [List.isEmpty_cons, Bool.false_eq_true, if_false, hloop]
    rw [lookup_updateMap _ _ pid (keys_dmProcessItems_nodup itemsB [] (by simp)), hB]
  · intro remote a b pid rA hA
    have h1 : cfMergeHandles remote [a, b] =
        cfMergeList (cfMergeList [] (get_solved_for_handle (remote a)))
          (get_solved_for_handle (remote b)) := rfl
    rw [h1, lookup_cfMergeList, lookup_cfMergeList]
    have h0 : (([] : List (String × CFRecord)).lookup pid) = none := rfl
    rw [h0, hA]
    rfl
  · intro fetched a b pid tA hA
    have h1 : merge_solved_problems fetched [a, b] =
        (fetched b).foldl (fun m t => insertIfAbsent m t.problem_id t)
          ((fetched a).foldl (fun m t => insertIfAbsent m t.problem_id t) []) := rfl
    rw [h1, lookup_gsFold, lookup_gsFold]
    have h0 : (([] : List (String × GSTuple)).lookup pid) = none := rfl
    rw [h0, hA]
    rfl

/-- Witness for C1: two handles both solving `17A`; the DataManager store
retains the record of the second handle. -/
theorem c1_witness :
    ((update_problems_data
        (fun h => if h = "x"
          then DMFetchOutcome.ok [⟨"OK", 1, some 17, "A", some 800, [], some 100⟩]
          else DMFetchOutcome.ok [⟨"OK", 2, some 17, "A", some 800, [], some 50⟩])
        ["x", "y"] 1 0 ⟨⟨0, []⟩, []⟩).1.dataFile.problems).lookup "17A" =
      some ⟨"17A", "https://codeforces.com/problemset/problem/17/A", 800, [], 2,
        "https://codeforces.com/contest/17/submission/2", some 50, some 17, "A"⟩ := by
  exact c1_merge_policy.1
    (fun h => if h = "x"
      then DMFetchOutcome.ok [⟨"OK", 1, some 17, "A", some 800, [], some 100⟩]
      else DMFetchOutcome.ok [⟨"OK", 2, some 17, "A", some 800, [], some 50⟩])
    "x" "y"
    [⟨"OK", 1, some 17, "A", some 800, [], some 100⟩]
    [⟨"OK", 2, some 17, "A", some 800, [], some 50⟩]
    "17A"
    ⟨"17A", "https://codeforces.com/problemset/problem/17/A", 800, [], 1,
      "https://codeforces.com/contest/17/submission/1", some 100, some 17, "A"⟩
    ⟨"17A", "https://codeforces.com/problemset/problem/17/A", 800, [], 2,
      "https://codeforces.com/contest/17/submission/2", some 50, some 17, "A"⟩
    1 0 ⟨⟨0, []⟩, []⟩ rfl rfl rfl rfl

/-- C2 counterexample: a transport error (modelled as the exception that
`DataManager.get_solved_problems` lets propagate) for handle `"a"` aborts
the whole refresh of `["a", "b"]`: the outcome is the raised exception and
the data file is left unwritten (handle `"b"` is never merged). -/
theorem c2_counterexample :
    (update_problems_data
        (fun h => if h = "a" then DMFetchOutcome.raises else DMFetchOutcome.ok [])
        ["a", "b"] 1 0 ⟨⟨0, []⟩, []⟩).2 = DMOutcome.raised ∧
    (update_problems_data
        (fun h => if h = "a" then DMFetchOutcome.raises else DMFetchOutcome.ok [])
        ["a", "b"] 1 0 ⟨⟨0, []⟩, []⟩).1.dataFile = ⟨0, []⟩ :=
  ⟨rfl, rfl⟩

/-- C2 amended: in `cf_api.get_all_solved_problems` every per-handle
failure kind (transport, decode, non-OK status, malformed shape) is
absorbed — failing handles contribute nothing and can be dropped from the
handle list without changing the result; in
`DataManager.update_problems_data` only the remote non-OK status is
skipped that way, while a transport/decode exception in
`get_solved_problems` propagates and aborts the refresh with the store
file unwritten (only the backup has been taken). -/
theorem c2_per_handle_failure_policy :
    (∀ (remote : String → CFFetchOutcome) (handles : List String),
      get_all_solved_problems remote handles =
        get_all_solved_problems remote
          (handles.filter fun g => !(remote g).fails)) ∧
    (∀ (remote : String → DMFetchOutcome) (handles : List String) (acc : DMMap),
      dmFetchLoop remote handles acc =
        dmFetchLoop remote
          (handles.filter fun g => !(remote g).isApiError) acc) ∧
    (∀ (remote : String → DMFetchOutcome) (pre : List String) (h : String)
       (post : List String) (bn : Nat) (now : Int) (s : DMState),
      (∀ g ∈ pre, remote g ≠ DMFetchOutcome.raises) →
      remote h = DMFetchOutcome.raises →
      update_problems_data remote (pre ++ h :: post) bn now s =
        (backup_data bn s, DMOutcome.raised)) := by
  refine ⟨?_, ?_, ?_⟩
  · intro remote handles
    unfold get_all_solved_problems
    rw [cfMergeHandles_skip_failures]
  · exact dmFetchLoop_skip_apiError
  · intro remote pre h post bn now s hpre hh
    have hloop := dmFetchLoop_raises remote pre h post [] hpre hh
    have hempty : (pre ++ h :: post).isEmpty = false := by cases pre <;> rfl
    unfold update_problems_data
    simp only [hempty, Bool.false_eq_true, if_false, hloop]

/-- Witness for C2: a single always-raising handle aborts the refresh
right after the backup. -/
theorem c2_witness :
    update_problems_data (fun _ => DMFetchOutcome.raises) ([] ++ "a" :: []) 1 0
        ⟨⟨0, []⟩, []⟩ =
      (backup_data 1 ⟨⟨0, []⟩, []⟩, DMOutcome.raised) :=
  c2_per_handle_failure_policy.2.2 (fun _ => DMFetchOutcome.raises) [] "a" [] 1 0
    ⟨⟨0, []⟩, []⟩ (fun g hg => absurd hg (List.not_mem_nil g)) rfl

/-- C4 counterexample: `cf_api.get_solved_for_handle` applies no rating
floor, so after a `pull` refresh the solved store contains a record whose
rating is 500. -/
theorem c4_counterexample :
    ((pull
        (fun _ => CFFetchOutcome.ok
          [⟨some "OK", some 9, some 100, some ⟨some 4, some "A", some 500, []⟩⟩])
        ["a"] 1 ⟨none, []⟩).1.solvedFile).map
      (fun l => l.map (fun r => r.rating)) = some [some 500] := rfl

/-- C4 amended: the ≥ 800 rating floor (with an absent rating defaulted to
0, hence dropped) holds for `DataManager.get_solved_problems` ingestion —
every record in the store after a successful `update_problems_data` has
rating ≥ 800 — and the catalog ingestion of `get_all_problems` applies no
floor; but `cf_api.get_solved_for_handle` also applies no floor, storing
the rating as-is (even absent or below 800). -/
theorem c4_rating_floor :
    (∀ (remote : String → DMFetchOutcome) (handles : List String)
       (bn : Nat) (now : Int) (s : DMState) (n : Nat),
      (update_problems_data remote handles bn now s).2 = DMOutcome.updated n →
      ∀ kv ∈ (update_problems_data remote handles bn now s).1.dataFile.problems,
        800 ≤ kv.2.rating) ∧
    (∀ (raws : List CatRaw) (now : Int) (store : CatStore),
      (get_all_problems (CatFetchOutcome.ok raws) true now store).1.problems =
        raws.filterMap catItemRecord) ∧
    (∀ (p : CatRaw) (cid : Int) (idx : String),
      p.contestId = some cid → p.index = some idx →
      ∃ r, catItemRecord p = some r ∧ r.rating = p.rating.getD 0) ∧
    (∀ (it : CFItem) (p : CFProblem) (cid : Int) (idx : String) (sid : Int),
      it.verdict = some "OK" → it.problem = some p → p.contestId = some cid →
      p.index = some idx → it.id = some sid →
      ∃ r, cfItemRecord it = some r ∧ r.rating = p.rating) := by
  refine ⟨?_, ?_, ?_, ?_⟩
  · intro remote handles bn now s n hout kv hkv
    cases handles with
    | nil => simp [update_problems_data] at hout
    | cons g gs =>
      simp only [update_problems_data, List.isEmpty_cons, Bool.false_eq_true,
        if_false] at hout hkv
      cases hloop : dmFetchLoop remote (g :: gs) [] with
      | error e =>
        rw [hloop] at hout
        simp at hout
      | ok m =>
        rw [hloop] at hkv
        simp only at hkv
        exact dmFetchLoop_rating remote (g :: gs) [] m hloop
          (fun kv2 h2 => absurd h2 (List.not_mem_nil kv2)) kv hkv
  · intro raws now store
    simp [get_all_problems]
  · intro p cid idx h1 h2
    simp only [catItemRecord, h1, h2]
    exact ⟨_, rfl, rfl⟩
  · intro it p cid idx sid hv hp hcid hidx hsid
    simp only [cfItemRecord, hv, hp, hcid, hidx, hsid, if_pos]
    exact ⟨_, rfl, rfl⟩

/-- Witness for C4: a concrete accepted item rated 500 is retained by the
cf_api ingestion with its sub-800 rating intact. -/
theorem c4_witness :
    ∃ r, cfItemRecord
        ⟨some "OK", some 9, some 100, some ⟨some 4, some "A", some 500, []⟩⟩ =
        some r ∧ r.rating = some 500 :=
  c4_rating_floor.2.2.2 ⟨some "OK", some 9, some 100,
      some ⟨some 4, some "A", some 500, []⟩⟩
    ⟨some 4, some "A", some 500, []⟩ 4 "A" 9 rfl rfl rfl rfl rfl

/-- C8 counterexample: 15 sequential refreshes through the module-level
`save_solved_problems_data` (each backing up the existing store) leave 15
backup files, not 10 — that path never prunes. -/
theorem c8_counterexample :
    (sdmSaveSeq [1, 2, 3, 4, 5, 6, 7, 8, 9, 10, 11, 12, 13, 14, 15] []
        ⟨some [], []⟩).backups.length = 15 ∧ (15 : Nat) ≠ 10 := by
  constructor
  · rfl
  · decide

/-- C8 amended: after 15 or more sequential refreshes with strictly
increasing backup timestamps, the `DataManager.backup_data` rotation
leaves exactly 10 backups — the 10 most recent — while the module-level
`save_solved_problems_data` keeps every backup it ever made. -/
theorem c8_backup_retention :
    (∀ (remote : String → DMFetchOutcome) (handles : List String)
       (steps : List Nat) (now : Int) (s : DMState),
      handles ≠ [] → 15 ≤ steps.length → steps.Pairwise (· < ·) →
      (∀ n ∈ steps, ∀ b ∈ s.backups, b < n) →
      (dmRefreshSeq remote handles steps now s).backups =
        steps.drop (steps.length - 10) ∧
      (dmRefreshSeq remote handles steps now s).backups.length = 10) ∧
    (∀ (steps : List Nat) (ps : List CFRecord) (s : SDMState),
      s.solvedFile.isSome = true → steps.Pairwise (· < ·) →
      (∀ n ∈ steps, ∀ b ∈ s.backups, b < n) →
      (sdmSaveSeq steps ps s).backups = s.backups ++ steps) := by
  constructor
  · intro remote handles steps now s hh hlen hinc hdom
    have hne : steps ≠ [] := by
      intro h
      rw [h] at hlen
      simp at hlen
    have h1 := dmRefreshSeq_backups remote handles steps now s hh
    have h2 := backupFold_eq_drop steps s.backups hne hinc hdom
    have h3 : (s.backups ++ steps).drop (s.backups.length + steps.length - 10) =
        steps.drop (steps.length - 10) := by
      have harith : s.backups.length + steps.length - 10 =
          s.backups.length + (steps.length - 10) := by omega
      rw [harith, List.drop_append]
    refine ⟨by rw [h1, h2, h3], ?_⟩
    rw [h1, h2, h3, List.length_drop]
    omega
  · exact sdmSaveSeq_backups

/-- Witness for C8: 15 refreshes with timestamps 1..15 from an empty
backup directory leave exactly the backups 6..15. -/
theorem c8_witness :
    (dmRefreshSeq (fun _ => DMFetchOutcome.apiError "") ["h"]
        [1, 2, 3, 4, 5, 6, 7, 8, 9, 10, 11, 12, 13, 14, 15] 0
        ⟨⟨0, []⟩, []⟩).backups = [6, 7, 8, 9, 10, 11, 12, 13, 14, 15] := by
  have h := (c8_backup_retention.1 (fun _ => DMFetchOutcome.apiError "") ["h"]
    [1, 2, 3, 4, 5, 6, 7, 8, 9, 10, 11, 12, 13, 14, 15] 0 ⟨⟨0, []⟩, []⟩
    (by simp) (by decide) (by decide)
    (fun n _ b hb => absurd hb (List.not_mem_nil b))).1
  exact h
